import Mathlib

/-!
Shallow embedding of the prediction API route of the
Quick-Suggestion-Recommendation repository
(src/app/api/predict/route.ts), together with proofs about its
data loading, caching, matching and HTTP handler behaviour.

Modelling conventions:
  - a parsed CSV row (a plain JS object with string values) is an
    association list `Row`; property access `row[key]` is `rowGet`,
    returning `none` for a missing key (JS `undefined`);
  - the JSON value produced by `req.json()` is the inductive `Json`;
    a body that is not valid JSON is `none : Option Json`;
  - reading the data file is modelled by an input
    `file : Except Unit (List Row)`: `Except.error` is a failed
    `fs.readFile`, `Except.ok rows` is the row list produced by
    `Papa.parse` (the external CSV parser is out of scope, per the
    spec, so the handlers are parameterised by its output);
  - `Date.now()` is an explicit parameter `now : Int`;
  - the module-level mutable `cache` variable is threaded explicitly:
    each handler takes the cache state before the request and returns
    the response together with the cache state after it;
  - JS number scores are modelled by exact rationals; the only division
    performed is `score / totalFields` with both operands small
    integers, where the JS double result orders exactly like the
    rational one; the `0 / 0 = NaN` case (whose comparisons are all
    false in JS) is modelled by the explicit `0 < total` guard in
    `findBestMatchGo`.
-/

/-- A JSON value, as produced by `req.json()`. -/
inductive Json where
  | null : Json
  | bool : Bool → Json
  | num : ℚ → Json
  | str : String → Json
  | arr : List Json → Json
  | obj : List (String × Json) → Json

/-- A parsed CSV row: a JS object with string-valued properties. -/
abbrev Row := List (String × String)

/-- Property access `row[key]` on a row object: the value of the first
binding of `key`, or `none` for JS `undefined`. -/
def rowGet (row : Row) (k : String) : Option String :=
  match row with
  | [] => none
  | (k2, v) :: rest => if k2 = k then some v else rowGet rest k

/-- The JS `key in obj` test on a row object. -/
def hasKey (row : Row) (k : String) : Bool :=
  (rowGet row k).isSome

/-- The name of the answer column of the dataset. -/
def tipCol : String := "Self-care tips that might help you out"

/-- One schema entry returned by the GET endpoint. -/
structure Column where
  name : String
  type : String
  options : List String
deriving DecidableEq

/-- The in-memory cache entry (interface CacheData). -/
structure CacheData where
  mlData : List Row
  columnInfo : List Column
  lastUpdated : ℤ
deriving DecidableEq

instance {ε α : Type} [DecidableEq ε] [DecidableEq α] : DecidableEq (Except ε α) := fun a b =>
  match a, b with
  | Except.error e1, Except.error e2 =>
    if h : e1 = e2 then isTrue (h ▸ rfl) else isFalse (fun hc => h (Except.error.inj hc))
  | Except.error _, Except.ok _ => isFalse (fun hc => Except.noConfusion hc)
  | Except.ok _, Except.error _ => isFalse (fun hc => Except.noConfusion hc)
  | Except.ok x, Except.ok y =>
    if h : x = y then isTrue (h ▸ rfl) else isFalse (fun hc => h (Except.ok.inj hc))

/-- CACHE_DURATION = 1000 * 60 * 60 milliseconds. -/
def CACHE_DURATION : ℤ := 1000 * 60 * 60

/-- One step of the option-collection loop: `if (row[colname])
uniqueValues.add(row[colname])`. A truthy cell value (present and
non-empty) is added to the Set, keeping first-occurrence order. -/
def addColumnValue (colname : String) (acc : List String) (row : Row) : List String :=
  match rowGet row colname with
  | some v => if v = "" then acc else if v ∈ acc then acc else acc ++ [v]
  | none => acc

/-- The default JS string comparison used by `Array.sort()`:
lexicographic on code units, modelled by comparing the code points of
the character lists (identical for the values at hand). -/
def strLeb : List Char → List Char → Bool
  | [], _ => true
  | _ :: _, [] => false
  | c :: cs, d :: ds =>
    if c.toNat < d.toNat then true
    else if d.toNat < c.toNat then false
    else strLeb cs ds

/-- Insert a value into a list sorted by the comparator `le`. -/
def jsSortInsert (le : String → String → Bool) (v : String) : List String → List String
  | [] => [v]
  | w :: rest => if le v w then v :: w :: rest else w :: jsSortInsert le v rest

/-- `Array.sort()`: a comparison sort producing the ascending
rearrangement of the list for the comparator `le` (insertion sort; any
correct sort yields the same list on the distinct values at hand). -/
def jsSort (le : String → String → Bool) : List String → List String
  | [] => []
  | v :: rest => jsSortInsert le v (jsSort le rest)

/-- The option values of one column: iterate over all rows collecting
the truthy cell values, then sort. -/
def columnOptions (mlData : List Row) (colname : String) : List String :=
  jsSort (fun a b => strLeb a.data b.data) (mlData.foldl (addColumnValue colname) [])

/-- loadAndProcessData after the file read and CSV parse: validate the
parsed rows, derive the column schema, and build the cache entry with
`lastUpdated := now`. Throwing is modelled by `Except.error`. -/
def loadAndProcessData (parsed : List Row) (now : ℤ) : Except String CacheData :=
  match parsed with
  | [] => Except.error "Invalid data structure in CSV"
  | first :: rest =>
    if hasKey first tipCol then
      Except.ok
        { mlData := first :: rest
          columnInfo :=
            ((first.map Prod.fst).filter (fun h => h ≠ tipCol)).map (fun colname =>
              { name := colname
                type := "categorical"
                options := columnOptions (first :: rest) colname })
          lastUpdated := now }
    else Except.error "Invalid data structure in CSV"

/-- The refresh branch of getCachedData: read the file and process it;
on any failure rethrow "Failed to load data" and leave the cache
variable unchanged (the assignment to `cache` never happens). -/
def refreshCache (cache : Option CacheData) (now : ℤ) (file : Except Unit (List Row)) :
    Except String CacheData × Option CacheData :=
  match file with
  | Except.error _ => (Except.error "Failed to load data", cache)
  | Except.ok rows =>
    match loadAndProcessData rows now with
    | Except.error _ => (Except.error "Failed to load data", cache)
    | Except.ok d => (Except.ok d, some d)

/-- The cache-staleness test of getCachedData:
`!cache || Date.now() - cache.lastUpdated > CACHE_DURATION`. -/
def cacheNeedsRefresh (cache : Option CacheData) (now : ℤ) : Bool :=
  match cache with
  | none => true
  | some c => CACHE_DURATION < now - c.lastUpdated

/-- getCachedData: refresh when there is no cache or it is stale,
otherwise return the cached entry; the second component is the cache
variable after the call. -/
def getCachedData (cache : Option CacheData) (now : ℤ) (file : Except Unit (List Row)) :
    Except String CacheData × Option CacheData :=
  match cache with
  | none => refreshCache none now file
  | some c =>
    if CACHE_DURATION < now - c.lastUpdated then refreshCache (some c) now file
    else (Except.ok c, some c)

/-- The strict-equality test `row[key] === value` between a row
property (a string or `undefined`) and a JSON value. -/
def jsEqStr (a : Option String) (v : Json) : Bool :=
  match a, v with
  | some s, Json.str t => s = t
  | _, _ => false

/-- The inner loop of findBestMatch: the number of user-supplied
entries whose value strictly equals the corresponding row property. -/
def matchScore (u : List (String × Json)) (row : Row) : Nat :=
  u.countP (fun kv => jsEqStr (rowGet row kv.1) kv.2)

/-- The row loop of findBestMatch, carrying `bestMatch` and `maxScore`.
When `total = 0` the JS normalized score is `0 / 0 = NaN` and the
comparison `normalizedScore > maxScore` is false, so the `0 < total`
guard makes the update condition false exactly as in JS. -/
def findBestMatchGo (u : List (String × Json)) (total : Nat) (best : Row) (maxScore : ℚ) :
    List Row → Row
  | [] => best
  | row :: rest =>
    if 0 < total ∧ maxScore < (matchScore u row : ℚ) / (total : ℚ) then
      findBestMatchGo u total row ((matchScore u row : ℚ) / (total : ℚ)) rest
    else
      findBestMatchGo u total best maxScore rest

/-- findBestMatch: initialize `bestMatch := mlData[0]`, `maxScore := -1`,
then scan every row. On an empty dataset `mlData[0]` is `undefined`,
modelled by `none`. -/
def findBestMatch (u : List (String × Json)) (mlData : List Row) : Option Row :=
  match mlData with
  | [] => none
  | r0 :: _ => some (findBestMatchGo u u.length r0 (-1) mlData)

/-- Variant of the row loop scoring by the raw match count, without
dividing by the number of supplied fields (used by the refinement
claim about score normalization). -/
def findBestMatchCountGo (u : List (String × Json)) (best : Row) (maxScore : ℤ) :
    List Row → Row
  | [] => best
  | row :: rest =>
    if maxScore < (matchScore u row : ℤ) then
      findBestMatchCountGo u row (matchScore u row : ℤ) rest
    else
      findBestMatchCountGo u best maxScore rest

/-- Variant of findBestMatch scoring each row by the raw count of
exact-match fields. -/
def findBestMatchCount (u : List (String × Json)) (mlData : List Row) : Option Row :=
  match mlData with
  | [] => none
  | r0 :: _ => some (findBestMatchCountGo u r0 (-1) mlData)

/-- Reference selection function: keep the current best, replacing it
only on a strictly greater match count. Both row loops reduce to it. -/
def pickBest (u : List (String × Json)) (best : Row) : List Row → Row
  | [] => best
  | row :: rest =>
    if matchScore u best < matchScore u row then pickBest u row rest
    else pickBest u best rest

/-- The JSON body of a NextResponse of either handler, together with
its HTTP status. Fields absent from a given response are `none`
(JSON.stringify drops properties whose value is undefined). -/
structure ApiResponse where
  status : ℕ
  success : Bool
  prediction : Option String
  error : Option String
  columns : Option (List Column)
deriving DecidableEq

/-- The input validation of POST:
`!userInput || typeof userInput !== 'object'` rejects exactly `null`
(falsy), booleans, numbers and strings; objects and arrays both have
JS typeof "object" and are truthy, so both pass. -/
def validInput (j : Json) : Bool :=
  match j with
  | Json.obj _ => true
  | Json.arr _ => true
  | _ => false

/-- `Object.entries(userInput)`: the own properties of an object, or
the index/element pairs of an array. Only called by POST after
`validInput`, so the remaining cases are unreachable there. -/
def jsEntries : Json → List (String × Json)
  | Json.obj fields => fields
  | Json.arr xs => xs.enum.map (fun p => (toString p.1, p.2))
  | _ => []

/-- The catch-block response of POST. -/
def postFailureResponse : ApiResponse :=
  { status := 500, success := false, prediction := none
    error := some "Failed to generate recommendation", columns := none }

/-- POST handler: load or reuse the cached dataset, parse the body,
validate it, match, and answer with the tip of the best-matching row.
Any thrown error (data load failure, JSON parse failure, or property
access on an `undefined` best match) lands in the catch block. -/
def POST (cache : Option CacheData) (now : ℤ) (file : Except Unit (List Row))
    (body : Option Json) : ApiResponse × Option CacheData :=
  match getCachedData cache now file with
  | (Except.error _, cache2) => (postFailureResponse, cache2)
  | (Except.ok d, cache2) =>
    match body with
    | none => (postFailureResponse, cache2)
    | some j =>
      if validInput j then
        match findBestMatch (jsEntries j) d.mlData with
        | some best =>
          ({ status := 200, success := true, prediction := rowGet best tipCol
             error := none, columns := none }, cache2)
        | none => (postFailureResponse, cache2)
      else
        ({ status := 400, success := false, prediction := none
           error := some "Invalid input format", columns := none }, cache2)

/-- GET handler: load or reuse the cached dataset and answer with the
column schema. -/
def GET (cache : Option CacheData) (now : ℤ) (file : Except Unit (List Row)) :
    ApiResponse × Option CacheData :=
  match getCachedData cache now file with
  | (Except.error _, cache2) =>
    ({ status := 500, success := false, prediction := none
       error := some "Failed to load form structure", columns := none }, cache2)
  | (Except.ok d, cache2) =>
    ({ status := 200, success := true, prediction := none
       error := none, columns := some d.columnInfo }, cache2)

/-! ### Reduction of both row loops to the reference selection -/

theorem findBestMatchGo_cons (u : List (String × Json)) (total : Nat) (best : Row)
    (m : ℚ) (row : Row) (rest : List Row) :
    findBestMatchGo u total best m (row :: rest) =
      if 0 < total ∧ m < (matchScore u row : ℚ) / (total : ℚ) then
        findBestMatchGo u total row ((matchScore u row : ℚ) / (total : ℚ)) rest
      else findBestMatchGo u total best m rest := rfl

theorem findBestMatchCountGo_cons (u : List (String × Json)) (best : Row)
    (m : ℤ) (row : Row) (rest : List Row) :
    findBestMatchCountGo u best m (row :: rest) =
      if m < (matchScore u row : ℤ) then
        findBestMatchCountGo u row (matchScore u row : ℤ) rest
      else findBestMatchCountGo u best m rest := rfl

theorem pickBest_cons (u : List (String × Json)) (best row : Row) (rest : List Row) :
    pickBest u best (row :: rest) =
      if matchScore u best < matchScore u row then pickBest u row rest
      else pickBest u best rest := rfl

theorem findBestMatchGo_total_zero (u : List (String × Json)) (best : Row) (m : ℚ)
    (rows : List Row) : findBestMatchGo u 0 best m rows = best := by
  induction rows generalizing best m with
  | nil => rfl
  | cons row rest ih => rw [findBestMatchGo_cons, if_neg (by simp), ih]

theorem findBestMatchGo_run (u : List (String × Json)) (total : Nat) (ht : 0 < total)
    (rows : List Row) (best : Row) :
    findBestMatchGo u total best ((matchScore u best : ℚ) / (total : ℚ)) rows =
      pickBest u best rows := by
  induction rows generalizing best with
  | nil => rfl
  | cons row rest ih =>
    have htq : (0 : ℚ) < (total : ℚ) := by exact_mod_cast ht
    have hcond : ((matchScore u best : ℚ) / (total : ℚ) <
        (matchScore u row : ℚ) / (total : ℚ)) ↔ matchScore u best < matchScore u row := by
      rw [div_lt_div_iff_of_pos_right htq]
      exact_mod_cast Iff.rfl
    rw [findBestMatchGo_cons, pickBest_cons]
    by_cases h : matchScore u best < matchScore u row
    · rw [if_pos ⟨ht, hcond.mpr h⟩, if_pos h, ih]
    · rw [if_neg (by intro hc; exact h (hcond.mp hc.2)), if_neg h, ih]

theorem findBestMatch_eq_pickBest (u : List (String × Json)) (r0 : Row) (rest : List Row)
    (hu : u ≠ []) : findBestMatch u (r0 :: rest) = some (pickBest u r0 rest) := by
  have ht : 0 < u.length := List.length_pos.mpr hu
  have htq : (0 : ℚ) < (u.length : ℚ) := by exact_mod_cast ht
  have hstep : (-1 : ℚ) < (matchScore u r0 : ℚ) / (u.length : ℚ) := by
    have h0 : (0 : ℚ) ≤ (matchScore u r0 : ℚ) / (u.length : ℚ) :=
      div_nonneg (by exact_mod_cast Nat.zero_le _) (le_of_lt htq)
    linarith
  show some (findBestMatchGo u u.length r0 (-1) (r0 :: rest)) = _
  rw [findBestMatchGo_cons, if_pos ⟨ht, hstep⟩, findBestMatchGo_run u u.length ht]

theorem findBestMatchCountGo_run (u : List (String × Json)) (rows : List Row) (best : Row) :
    findBestMatchCountGo u best (matchScore u best : ℤ) rows = pickBest u best rows := by
  induction rows generalizing best with
  | nil => rfl
  | cons row rest ih =>
    have hcond : ((matchScore u best : ℤ) < (matchScore u row : ℤ)) ↔
        matchScore u best < matchScore u row := by exact_mod_cast Iff.rfl
    rw [findBestMatchCountGo_cons, pickBest_cons]
    by_cases h : matchScore u best < matchScore u row
    · rw [if_pos (hcond.mpr h), if_pos h, ih]
    · rw [if_neg (fun hc => h (hcond.mp hc)), if_neg h, ih]

theorem findBestMatchCount_eq_pickBest (u : List (String × Json)) (r0 : Row)
    (rest : List Row) : findBestMatchCount u (r0 :: rest) = some (pickBest u r0 rest) := by
  have hstep : (-1 : ℤ) < (matchScore u r0 : ℤ) := by
    have : (0 : ℤ) ≤ (matchScore u r0 : ℤ) := by exact_mod_cast Nat.zero_le _
    linarith
  show some (findBestMatchCountGo u r0 (-1) (r0 :: rest)) = _
  rw [findBestMatchCountGo_cons, if_pos hstep, findBestMatchCountGo_run]


/-! ### Properties of the reference selection -/

theorem pickBest_mem (u : List (String × Json)) (best : Row) (rows : List Row) :
    pickBest u best rows ∈ best :: rows := by
  induction rows generalizing best with
  | nil => exact List.mem_singleton.mpr rfl
  | cons row rest ih =>
    rw [pickBest_cons]
    by_cases h : matchScore u best < matchScore u row
    · rw [if_pos h]
      exact List.mem_cons_of_mem best (ih row)
    · rw [if_neg h]
      rcases List.mem_cons.mp (ih best) with h1 | h1
      · rw [h1]
        exact List.mem_cons_self _ _
      · exact List.mem_cons_of_mem _ (List.mem_cons_of_mem _ h1)

theorem pickBest_le (u : List (String × Json)) (best : Row) (rows : List Row) :
    ∀ r ∈ best :: rows, matchScore u r ≤ matchScore u (pickBest u best rows) := by
  induction rows generalizing best with
  | nil =>
    intro r hr
    have h1 : r = best := List.mem_singleton.mp hr
    subst h1
    exact Nat.le_refl _
  | cons row rest ih =>
    intro r hr
    rw [pickBest_cons]
    by_cases h : matchScore u best < matchScore u row
    · rw [if_pos h]
      rcases List.mem_cons.mp hr with h1 | h1
      · subst h1
        exact le_of_lt (lt_of_lt_of_le h (ih row row (List.mem_cons_self _ _)))
      · exact ih row r h1
    · rw [if_neg h]
      rcases List.mem_cons.mp hr with h1 | h1
      · subst h1
        exact ih r r (List.mem_cons_self _ _)
      · rcases List.mem_cons.mp h1 with h2 | h2
        · subst h2
          exact le_trans (Nat.le_of_not_lt h) (ih best best (List.mem_cons_self _ _))
        · exact ih best r (List.mem_cons_of_mem _ h2)

theorem pickBest_first (u : List (String × Json)) (best : Row) (rows : List Row) :
    ∃ l1 l2, best :: rows = l1 ++ pickBest u best rows :: l2 ∧
      ∀ r ∈ l1, matchScore u r < matchScore u (pickBest u best rows) := by
  induction rows generalizing best with
  | nil =>
    refine ⟨[], [], rfl, ?_⟩
    intro r hr
    exact absurd hr (List.not_mem_nil r)
  | cons row rest ih =>
    rw [pickBest_cons]
    by_cases h : matchScore u best < matchScore u row
    · rw [if_pos h]
      obtain ⟨l1, l2, heq, hlt⟩ := ih row
      refine ⟨best :: l1, l2, by rw [List.cons_append, ← heq], ?_⟩
      intro r hr
      rcases List.mem_cons.mp hr with h1 | h1
      · subst h1
        exact lt_of_lt_of_le h (pickBest_le u row rest row (List.mem_cons_self _ _))
      · exact hlt r h1
    · rw [if_neg h]
      obtain ⟨l1, l2, heq, hlt⟩ := ih best
      cases l1 with
      | nil =>
        rw [List.nil_append] at heq
        obtain ⟨h1, h2⟩ := List.cons.inj heq
        refine ⟨[], row :: rest, ?_, ?_⟩
        · rw [List.nil_append, ← h1]
        · intro r hr
          exact absurd hr (List.not_mem_nil r)
      | cons a l1t =>
        rw [List.cons_append] at heq
        obtain ⟨h1, h2⟩ := List.cons.inj heq
        have hbestlt : matchScore u best < matchScore u (pickBest u best rest) := by
          have h3 := hlt a (List.mem_cons_self _ _)
          rw [← h1] at h3
          exact h3
        refine ⟨best :: row :: l1t, l2, ?_, ?_⟩
        · exact congrArg (fun t => best :: row :: t) h2
        · intro r hr
          rcases List.mem_cons.mp hr with h4 | h4
          · subst h4
            exact hbestlt
          · rcases List.mem_cons.mp h4 with h5 | h5
            · subst h5
              exact lt_of_le_of_lt (Nat.le_of_not_lt h) hbestlt
            · exact hlt r (List.mem_cons_of_mem _ h5)

/-! ### Cache and loader lemmas -/

theorem getCachedData_not_stale (c : CacheData) (now : ℤ) (file : Except Unit (List Row))
    (h : ¬ CACHE_DURATION < now - c.lastUpdated) :
    getCachedData (some c) now file = (Except.ok c, some c) := by
  simp [getCachedData, h]

theorem getCachedData_stale (cache : Option CacheData) (now : ℤ)
    (file : Except Unit (List Row)) (h : cacheNeedsRefresh cache now = true) :
    getCachedData cache now file = refreshCache cache now file := by
  cases cache with
  | none => rfl
  | some c =>
    have h2 : CACHE_DURATION < now - c.lastUpdated := by
      simpa [cacheNeedsRefresh] using h
    simp [getCachedData, h2]

theorem cacheNeedsRefresh_false_elim (cache : Option CacheData) (now : ℤ)
    (h : cacheNeedsRefresh cache now = false) :
    ∃ c, cache = some c ∧ ¬ CACHE_DURATION < now - c.lastUpdated := by
  cases cache with
  | none => simp [cacheNeedsRefresh] at h
  | some c =>
    refine ⟨c, rfl, ?_⟩
    simpa [cacheNeedsRefresh] using h

theorem loadAndProcessData_ok_iff (parsed : List Row) (now : ℤ) :
    (loadAndProcessData parsed now).isOk = true ↔
      ∃ first rest, parsed = first :: rest ∧ hasKey first tipCol = true := by
  cases parsed with
  | nil => simp [loadAndProcessData, Except.isOk, Except.toBool]
  | cons first rest =>
    by_cases h : hasKey first tipCol = true
    · simp only [loadAndProcessData, if_pos h, Except.isOk, Except.toBool]
      exact iff_of_true (by simp) ⟨first, rest, rfl, h⟩
    · simp only [loadAndProcessData, if_neg h, Except.isOk, Except.toBool]
      constructor
      · intro hd
        exact absurd hd (by simp)
      · rintro ⟨f, r, heq, hk⟩
        obtain ⟨h1, h2⟩ := List.cons.inj heq
        rw [← h1] at hk
        exact absurd hk h

theorem loadAndProcessData_ok_elim (first : Row) (rest : List Row) (now : ℤ) (d : CacheData)
    (h : loadAndProcessData (first :: rest) now = Except.ok d) :
    d.mlData = first :: rest ∧ d.lastUpdated = now ∧
      d.columnInfo = ((first.map Prod.fst).filter (fun hd => hd ≠ tipCol)).map (fun colname =>
        { name := colname, type := "categorical"
          options := columnOptions (first :: rest) colname }) := by
  by_cases hk : hasKey first tipCol = true
  · simp only [loadAndProcessData, if_pos hk] at h
    obtain h2 := Except.ok.inj h
    subst h2
    exact ⟨rfl, rfl, rfl⟩
  · simp [loadAndProcessData, hk] at h

theorem mem_addColumnValue (colname v : String) (acc : List String) (row : Row) :
    v ∈ addColumnValue colname acc row ↔
      v ∈ acc ∨ (v ≠ "" ∧ rowGet row colname = some v) := by
  rcases h : rowGet row colname with _ | w
  · have hred : addColumnValue colname acc row = acc := by
      unfold addColumnValue
      rw [h]
    rw [hred]
    simp
  · have hred : addColumnValue colname acc row =
        if w = "" then acc else if w ∈ acc then acc else acc ++ [w] := by
      unfold addColumnValue
      rw [h]
    rw [hred]
    by_cases hw : w = ""
    · subst hw
      rw [if_pos rfl]
      constructor
      · exact fun hv => Or.inl hv
      · rintro (hv | ⟨hne, hsome⟩)
        · exact hv
        · exact absurd (Option.some.inj hsome).symm hne
    · by_cases hv : w ∈ acc
      · rw [if_neg hw, if_pos hv]
        constructor
        · exact Or.inl
        · rintro (h1 | ⟨hne, hsome⟩)
          · exact h1
          · rw [← Option.some.inj hsome]
            exact hv
      · rw [if_neg hw, if_neg hv, List.mem_append, List.mem_singleton]
        constructor
        · rintro (h1 | h1)
          · exact Or.inl h1
          · subst h1
            exact Or.inr ⟨hw, rfl⟩
        · rintro (h1 | ⟨hne, hsome⟩)
          · exact Or.inl h1
          · exact Or.inr (Option.some.inj hsome).symm

theorem mem_foldl_addColumnValue (colname : String) (rows : List Row) :
    ∀ (acc : List String) (v : String),
      v ∈ rows.foldl (addColumnValue colname) acc ↔
        v ∈ acc ∨ (v ≠ "" ∧ ∃ row ∈ rows, rowGet row colname = some v) := by
  induction rows with
  | nil =>
    intro acc v
    simp
  | cons row rest ih =>
    intro acc v
    rw [List.foldl_cons, ih, mem_addColumnValue]
    constructor
    · rintro ((h1 | ⟨hne, hsome⟩) | ⟨hne, row2, hmem, hsome⟩)
      · exact Or.inl h1
      · exact Or.inr ⟨hne, row, List.mem_cons_self _ _, hsome⟩
      · exact Or.inr ⟨hne, row2, List.mem_cons_of_mem _ hmem, hsome⟩
    · rintro (h1 | ⟨hne, row2, hmem, hsome⟩)
      · exact Or.inl (Or.inl h1)
      · rcases List.mem_cons.mp hmem with h2 | h2
        · subst h2
          exact Or.inl (Or.inr ⟨hne, hsome⟩)
        · exact Or.inr ⟨hne, row2, h2, hsome⟩

theorem mem_jsSortInsert (le : String → String → Bool) (v w : String) (l : List String) :
    w ∈ jsSortInsert le v l ↔ w = v ∨ w ∈ l := by
  induction l with
  | nil => simp [jsSortInsert]
  | cons x rest ih =>
    show (w ∈ if le v x then v :: x :: rest else x :: jsSortInsert le v rest) ↔ _
    by_cases h : le v x = true
    · rw [if_pos h]
      simp [List.mem_cons]
    · rw [if_neg h]
      simp only [List.mem_cons, ih]
      tauto

theorem mem_jsSort (le : String → String → Bool) (l : List String) (v : String) :
    v ∈ jsSort le l ↔ v ∈ l := by
  induction l with
  | nil => simp [jsSort]
  | cons x rest ih =>
    show v ∈ jsSortInsert le x (jsSort le rest) ↔ _
    rw [mem_jsSortInsert, ih]
    simp [List.mem_cons]

theorem mem_columnOptions (mlData : List Row) (colname v : String) :
    v ∈ columnOptions mlData colname ↔
      v ≠ "" ∧ ∃ row ∈ mlData, rowGet row colname = some v := by
  unfold columnOptions
  rw [mem_jsSort, mem_foldl_addColumnValue]
  simp

/-! ### Sample data used by the witnesses -/

def sampleU : List (String × Json) := [("A", Json.str "x"), ("B", Json.str "z")]

def sampleRows : List Row :=
  [[("A", "x"), ("B", "y"), (tipCol, "t1")], [("A", "x"), ("B", "z"), (tipCol, "t2")]]

def tieU : List (String × Json) := [("A", Json.str "x")]

def tieRows : List Row := [[("A", "x"), (tipCol, "t1")], [("A", "x"), (tipCol, "t2")]]

def sampleCache : CacheData :=
  { mlData := [[(tipCol, "t1")], [(tipCol, "t2")]], columnInfo := [], lastUpdated := 0 }

/-! ### Claims about the matcher -/

/-- C1: for every non-empty dataset row list and every non-empty user
answer set, findBestMatch returns a dataset row maximizing, over all
rows, the fraction of user-supplied fields whose value exactly equals
the corresponding row field; equivalently no other row has a strictly
higher count of exact-match fields. -/
theorem claim_C1_findBestMatch_maximizes (u : List (String × Json)) (rows : List Row)
    (hrows : rows ≠ []) (hu : u ≠ []) :
    ∃ b, findBestMatch u rows = some b ∧ b ∈ rows ∧
      ∀ r ∈ rows,
        (matchScore u r : ℚ) / (u.length : ℚ) ≤ (matchScore u b : ℚ) / (u.length : ℚ) ∧
        matchScore u r ≤ matchScore u b := by
  obtain ⟨r0, rest, rfl⟩ := List.exists_cons_of_ne_nil hrows
  refine ⟨pickBest u r0 rest, findBestMatch_eq_pickBest u r0 rest hu,
    pickBest_mem u r0 rest, ?_⟩
  intro r hr
  have hle := pickBest_le u r0 rest r hr
  have htq : (0 : ℚ) < (u.length : ℚ) := by
    exact_mod_cast List.length_pos.mpr hu
  exact ⟨(div_le_div_iff_of_pos_right htq).mpr (by exact_mod_cast hle), hle⟩

/-- C1 witness: the maximality property at a concrete dataset and
answer set. -/
theorem claim_C1_witness :
    sampleRows ≠ [] ∧ sampleU ≠ [] ∧
      ∃ b, findBestMatch sampleU sampleRows = some b ∧ b ∈ sampleRows ∧
        ∀ r ∈ sampleRows,
          (matchScore sampleU r : ℚ) / (sampleU.length : ℚ) ≤
            (matchScore sampleU b : ℚ) / (sampleU.length : ℚ) ∧
          matchScore sampleU r ≤ matchScore sampleU b :=
  ⟨by simp [sampleRows], by simp [sampleU],
    claim_C1_findBestMatch_maximizes sampleU sampleRows (by simp [sampleRows])
      (by simp [sampleU])⟩

/-- C7: for every non-empty dataset and non-empty user answer set,
findBestMatch selects the same row as the variant scoring each row by
the raw count of exact-match fields: normalizing by the common
positive divisor preserves the argmax. -/
theorem claim_C7_normalization_preserves_argmax (u : List (String × Json))
    (rows : List Row) (hrows : rows ≠ []) (hu : u ≠ []) :
    findBestMatch u rows = findBestMatchCount u rows := by
  obtain ⟨r0, rest, rfl⟩ := List.exists_cons_of_ne_nil hrows
  rw [findBestMatch_eq_pickBest u r0 rest hu, findBestMatchCount_eq_pickBest]

/-- C7 witness: agreement of the two scoring variants at a concrete
dataset and answer set. -/
theorem claim_C7_witness :
    sampleRows ≠ [] ∧ sampleU ≠ [] ∧
      findBestMatch sampleU sampleRows = findBestMatchCount sampleU sampleRows :=
  ⟨by simp [sampleRows], by simp [sampleU],
    claim_C7_normalization_preserves_argmax sampleU sampleRows (by simp [sampleRows])
      (by simp [sampleU])⟩

/-- C9: with a non-empty dataset and non-empty answer set, findBestMatch
returns the earliest row of maximal score in dataset order: every row
strictly before the returned one scores strictly less, so ties are won
by the earlier row. -/
theorem claim_C9_ties_prefer_earliest (u : List (String × Json)) (rows : List Row)
    (hrows : rows ≠ []) (hu : u ≠ []) :
    ∃ b l1 l2, findBestMatch u rows = some b ∧ rows = l1 ++ b :: l2 ∧
      ∀ r ∈ l1, matchScore u r < matchScore u b := by
  obtain ⟨r0, rest, rfl⟩ := List.exists_cons_of_ne_nil hrows
  obtain ⟨l1, l2, heq, hlt⟩ := pickBest_first u r0 rest
  exact ⟨pickBest u r0 rest, l1, l2, findBestMatch_eq_pickBest u r0 rest hu, heq, hlt⟩

/-- C9 witness: at a concrete dataset with two rows of equal score the
returned row splits the list with a strictly-smaller prefix. -/
theorem claim_C9_witness :
    tieRows ≠ [] ∧ tieU ≠ [] ∧
      ∃ b l1 l2, findBestMatch tieU tieRows = some b ∧ tieRows = l1 ++ b :: l2 ∧
        ∀ r ∈ l1, matchScore tieU r < matchScore tieU b :=
  ⟨by simp [tieRows], by simp [tieU],
    claim_C9_ties_prefer_earliest tieU tieRows (by simp [tieRows]) (by simp [tieU])⟩

/-- C8: with a non-empty dataset and an empty user answer set (divisor
zero, every normalized score NaN), findBestMatch returns the first
dataset row, and POST with an empty JSON object body answers success
true with the tip of that first row instead of an error. -/
theorem claim_C8_empty_input_first_row (r0 : Row) (rest : List Row) (c : CacheData)
    (now : ℤ) (file : Except Unit (List Row)) (hdata : c.mlData = r0 :: rest)
    (hfresh : cacheNeedsRefresh (some c) now = false) :
    findBestMatch [] (r0 :: rest) = some r0 ∧
      POST (some c) now file (some (Json.obj [])) =
        ({ status := 200, success := true, prediction := rowGet r0 tipCol
           error := none, columns := none }, some c) := by
  have hfb : findBestMatch [] (r0 :: rest) = some r0 := by
    show some (findBestMatchGo [] 0 r0 (-1) (r0 :: rest)) = some r0
    rw [findBestMatchGo_total_zero]
  obtain ⟨c2, hc2, hns⟩ := cacheNeedsRefresh_false_elim (some c) now hfresh
  obtain rfl : c = c2 := Option.some.inj hc2
  have hget := getCachedData_not_stale c now file hns
  refine ⟨hfb, ?_⟩
  show (match getCachedData (some c) now file with
    | (Except.error _, cache2) => (postFailureResponse, cache2)
    | (Except.ok d, cache2) => _) = _
  rw [hget]
  have hvi : validInput (Json.obj []) = true := by rfl
  show (if validInput (Json.obj []) = true then
      match findBestMatch (jsEntries (Json.obj [])) c.mlData with
      | some best => (({ status := 200, success := true, prediction := rowGet best tipCol
                         error := none, columns := none } : ApiResponse), some c)
      | none => (postFailureResponse, some c)
    else
      (({ status := 400, success := false, prediction := none
          error := some "Invalid input format", columns := none } : ApiResponse), some c)) = _
  rw [if_pos hvi]
  show (match findBestMatch (jsEntries (Json.obj [])) c.mlData with
    | some best => (({ status := 200, success := true, prediction := rowGet best tipCol
                       error := none, columns := none } : ApiResponse), some c)
    | none => (postFailureResponse, some c)) = _
  rw [hdata]
  show (match findBestMatch [] (r0 :: rest) with
    | some best => (({ status := 200, success := true, prediction := rowGet best tipCol
                       error := none, columns := none } : ApiResponse), some c)
    | none => (postFailureResponse, some c)) = _
  rw [hfb]

/-- C8 witness: the empty-answer behaviour at a concrete cache. -/
theorem claim_C8_witness :
    sampleCache.mlData = [(tipCol, "t1")] :: [[(tipCol, "t2")]] ∧
      cacheNeedsRefresh (some sampleCache) 50 = false ∧
      findBestMatch [] ([(tipCol, "t1")] :: [[(tipCol, "t2")]]) = some [(tipCol, "t1")] ∧
      POST (some sampleCache) 50 (Except.error ()) (some (Json.obj [])) =
        ({ status := 200, success := true, prediction := rowGet [(tipCol, "t1")] tipCol
           error := none, columns := none }, some sampleCache) :=
  ⟨rfl, by decide,
    claim_C8_empty_input_first_row [(tipCol, "t1")] [[(tipCol, "t2")]] sampleCache 50
      (Except.error ()) rfl (by decide)⟩

/-! ### Handler reduction lemmas -/

theorem POST_getError (cache : Option CacheData) (now : ℤ) (file : Except Unit (List Row))
    (body : Option Json) (e : String) (cache2 : Option CacheData)
    (hget : getCachedData cache now file = (Except.error e, cache2)) :
    POST cache now file body = (postFailureResponse, cache2) := by
  unfold POST
  rw [hget]

theorem POST_parseFail (cache : Option CacheData) (now : ℤ) (file : Except Unit (List Row))
    (d : CacheData) (cache2 : Option CacheData)
    (hget : getCachedData cache now file = (Except.ok d, cache2)) :
    POST cache now file none = (postFailureResponse, cache2) := by
  unfold POST
  rw [hget]

theorem POST_badInput (cache : Option CacheData) (now : ℤ) (file : Except Unit (List Row))
    (d : CacheData) (cache2 : Option CacheData) (j : Json)
    (hget : getCachedData cache now file = (Except.ok d, cache2))
    (hvi : validInput j = false) :
    POST cache now file (some j) =
      ({ status := 400, success := false, prediction := none
         error := some "Invalid input format", columns := none }, cache2) := by
  unfold POST
  rw [hget]
  show (if validInput j = true then
      match findBestMatch (jsEntries j) d.mlData with
      | some best => (({ status := 200, success := true, prediction := rowGet best tipCol
                         error := none, columns := none } : ApiResponse), cache2)
      | none => (postFailureResponse, cache2)
    else
      (({ status := 400, success := false, prediction := none
          error := some "Invalid input format", columns := none } : ApiResponse), cache2)) = _
  rw [if_neg (by simp [hvi])]

theorem POST_ok (cache : Option CacheData) (now : ℤ) (file : Except Unit (List Row))
    (d : CacheData) (cache2 : Option CacheData) (j : Json) (b : Row)
    (hget : getCachedData cache now file = (Except.ok d, cache2))
    (hvi : validInput j = true)
    (hfb : findBestMatch (jsEntries j) d.mlData = some b) :
    POST cache now file (some j) =
      ({ status := 200, success := true, prediction := rowGet b tipCol
         error := none, columns := none }, cache2) := by
  unfold POST
  rw [hget]
  show (if validInput j = true then
      match findBestMatch (jsEntries j) d.mlData with
      | some best => (({ status := 200, success := true, prediction := rowGet best tipCol
                         error := none, columns := none } : ApiResponse), cache2)
      | none => (postFailureResponse, cache2)
    else
      (({ status := 400, success := false, prediction := none
          error := some "Invalid input format", columns := none } : ApiResponse), cache2)) = _
  rw [if_pos hvi]
  show (match findBestMatch (jsEntries j) d.mlData with
    | some best => (({ status := 200, success := true, prediction := rowGet best tipCol
                       error := none, columns := none } : ApiResponse), cache2)
    | none => (postFailureResponse, cache2)) = _
  rw [hfb]

theorem GET_getError (cache : Option CacheData) (now : ℤ) (file : Except Unit (List Row))
    (e : String) (cache2 : Option CacheData)
    (hget : getCachedData cache now file = (Except.error e, cache2)) :
    GET cache now file =
      ({ status := 500, success := false, prediction := none
         error := some "Failed to load form structure", columns := none }, cache2) := by
  unfold GET
  rw [hget]

theorem GET_ok (cache : Option CacheData) (now : ℤ) (file : Except Unit (List Row))
    (d : CacheData) (cache2 : Option CacheData)
    (hget : getCachedData cache now file = (Except.ok d, cache2)) :
    GET cache now file =
      ({ status := 200, success := true, prediction := none
         error := none, columns := some d.columnInfo }, cache2) := by
  unfold GET
  rw [hget]

theorem refreshCache_error (cache : Option CacheData) (now : ℤ)
    (file : Except Unit (List Row))
    (hfail : file = Except.error () ∨
      ∃ rows e, file = Except.ok rows ∧ loadAndProcessData rows now = Except.error e) :
    refreshCache cache now file = (Except.error "Failed to load data", cache) := by
  rcases hfail with rfl | ⟨rows, e, rfl, hload⟩
  · rfl
  · show (match loadAndProcessData rows now with
      | Except.error _ => ((Except.error "Failed to load data" : Except String CacheData), cache)
      | Except.ok d => (Except.ok d, some d)) = _
    rw [hload]

theorem refreshCache_ok (cache : Option CacheData) (now : ℤ) (rows : List Row)
    (d : CacheData) (hload : loadAndProcessData rows now = Except.ok d) :
    refreshCache cache now (Except.ok rows) = (Except.ok d, some d) := by
  show (match loadAndProcessData rows now with
    | Except.error _ => ((Except.error "Failed to load data" : Except String CacheData), cache)
    | Except.ok d2 => (Except.ok d2, some d2)) = _
  rw [hload]

theorem findBestMatch_isSome (u : List (String × Json)) (mlData : List Row)
    (hne : mlData ≠ []) : ∃ b, findBestMatch u mlData = some b := by
  obtain ⟨r0, rest, rfl⟩ := List.exists_cons_of_ne_nil hne
  exact ⟨_, rfl⟩

/-! ### Claims about the cache and loader -/

/-- C4: a request refreshes (reads and re-processes the CSV) exactly
when no cache exists or more than CACHE_DURATION = 3600000 ms have
elapsed since lastUpdated; inside the window getCachedData returns the
cached entry unchanged without consulting the file. -/
theorem claim_C4_cache_window (cache : Option CacheData) (now : ℤ)
    (file : Except Unit (List Row)) :
    CACHE_DURATION = 3600000 ∧
    (cacheNeedsRefresh cache now = true ↔
      cache = none ∨ ∃ c, cache = some c ∧ CACHE_DURATION < now - c.lastUpdated) ∧
    (cacheNeedsRefresh cache now = true →
      getCachedData cache now file = refreshCache cache now file) ∧
    (cacheNeedsRefresh cache now = false →
      ∃ c, cache = some c ∧ getCachedData cache now file = (Except.ok c, some c)) := by
  refine ⟨rfl, ?_, getCachedData_stale cache now file, ?_⟩
  · cases cache with
    | none => simp [cacheNeedsRefresh]
    | some c => simp [cacheNeedsRefresh]
  · intro h
    obtain ⟨c, rfl, hns⟩ := cacheNeedsRefresh_false_elim cache now h
    exact ⟨c, rfl, getCachedData_not_stale c now file hns⟩

/-- C4 witness: a fresh cache is served unchanged with the file ignored
(an erroring file input), and a stale cache triggers the refresh
path. -/
theorem claim_C4_witness :
    cacheNeedsRefresh (some sampleCache) 50 = false ∧
    getCachedData (some sampleCache) 50 (Except.error ()) =
      (Except.ok sampleCache, some sampleCache) ∧
    cacheNeedsRefresh (some sampleCache) 3600001 = true ∧
    getCachedData (some sampleCache) 3600001 (Except.error ()) =
      refreshCache (some sampleCache) 3600001 (Except.error ()) := by
  refine ⟨by decide, ?_, by decide, ?_⟩
  · obtain ⟨c, hc, hg⟩ :=
      (claim_C4_cache_window (some sampleCache) 50 (Except.error ())).2.2.2 (by decide)
    obtain rfl : sampleCache = c := Option.some.inj hc
    exact hg
  · exact (claim_C4_cache_window (some sampleCache) 3600001 (Except.error ())).2.2.1 (by decide)

/-- C5: when a refresh is due and reading or processing the CSV fails,
POST and GET both answer success false with HTTP 500, and the cache
variable is exactly what it was before the request. -/
theorem claim_C5_error_propagation (cache : Option CacheData) (now : ℤ)
    (file : Except Unit (List Row)) (body : Option Json)
    (hstale : cacheNeedsRefresh cache now = true)
    (hfail : file = Except.error () ∨
      ∃ rows e, file = Except.ok rows ∧ loadAndProcessData rows now = Except.error e) :
    POST cache now file body = (postFailureResponse, cache) ∧
    GET cache now file =
      ({ status := 500, success := false, prediction := none
         error := some "Failed to load form structure", columns := none }, cache) ∧
    postFailureResponse.status = 500 ∧ postFailureResponse.success = false := by
  have hget : getCachedData cache now file = (Except.error "Failed to load data", cache) := by
    rw [getCachedData_stale cache now file hstale, refreshCache_error cache now file hfail]
  exact ⟨POST_getError cache now file body _ cache hget,
    GET_getError cache now file _ cache hget, rfl, rfl⟩

/-- C5 witness: with no cache and a failing file read, both handlers
answer 500 and the cache stays empty. -/
theorem claim_C5_witness :
    cacheNeedsRefresh none 0 = true ∧
    (POST none 0 (Except.error ()) none = (postFailureResponse, none) ∧
      GET none 0 (Except.error ()) =
        ({ status := 500, success := false, prediction := none
           error := some "Failed to load form structure", columns := none }, none) ∧
      postFailureResponse.status = 500 ∧ postFailureResponse.success = false) :=
  ⟨by decide, claim_C5_error_propagation none 0 (Except.error ()) none (by decide) (Or.inl rfl)⟩

/-- C6: loadAndProcessData fails exactly when the parsed CSV has zero
data rows or its first row lacks the tip column, succeeds in every
other case producing a cache entry over those rows, and a failing load
makes the requesting endpoint answer 500. -/
theorem claim_C6_load_validation (parsed : List Row) (now : ℤ) (body : Option Json) :
    ((loadAndProcessData parsed now).isOk = true ↔
      ∃ first rest, parsed = first :: rest ∧ hasKey first tipCol = true) ∧
    ((loadAndProcessData parsed now).isOk = false ↔
      parsed = [] ∨ ∃ first rest, parsed = first :: rest ∧ hasKey first tipCol = false) ∧
    (∀ d, loadAndProcessData parsed now = Except.ok d →
      d.mlData = parsed ∧ d.lastUpdated = now) ∧
    ((loadAndProcessData parsed now).isOk = false →
      (GET none now (Except.ok parsed)).1.status = 500 ∧
      (POST none now (Except.ok parsed) body).1.status = 500) := by
  refine ⟨loadAndProcessData_ok_iff parsed now, ?_, ?_, ?_⟩
  · cases parsed with
    | nil => simp [loadAndProcessData, Except.isOk, Except.toBool]
    | cons first rest =>
      by_cases h : hasKey first tipCol = true
      · simp only [loadAndProcessData, if_pos h, Except.isOk, Except.toBool]
        refine iff_of_false (by simp) ?_
        rintro (h1 | ⟨f, r, heq, hk⟩)
        · exact List.cons_ne_nil _ _ h1
        · obtain ⟨h2, h3⟩ := List.cons.inj heq
          rw [← h2, h] at hk
          exact Bool.noConfusion hk
      · simp only [loadAndProcessData, if_neg h, Except.isOk, Except.toBool]
        refine iff_of_true (by simp) (Or.inr ⟨first, rest, rfl, ?_⟩)
        simpa using h
  · intro d hd
    cases parsed with
    | nil => simp [loadAndProcessData] at hd
    | cons first rest =>
      obtain ⟨h1, h2, h3⟩ := loadAndProcessData_ok_elim first rest now d hd
      exact ⟨h1, h2⟩
  · intro hbad
    cases hload : loadAndProcessData parsed now with
    | ok d =>
      rw [hload] at hbad
      simp [Except.isOk, Except.toBool] at hbad
    | error e =>
      have hget : getCachedData none now (Except.ok parsed) =
          (Except.error "Failed to load data", none) := by
        show refreshCache none now (Except.ok parsed) = _
        show (match loadAndProcessData parsed now with
          | Except.error _ =>
            ((Except.error "Failed to load data" : Except String CacheData), (none : Option CacheData))
          | Except.ok d => (Except.ok d, some d)) = _
        rw [hload]
      rw [GET_getError none now (Except.ok parsed) _ none hget,
        POST_getError none now (Except.ok parsed) body _ none hget]
      exact ⟨rfl, rfl⟩

/-- C6 witness: a parsed CSV whose first row lacks the tip column fails
to load and both endpoints would answer 500. -/
theorem claim_C6_witness :
    (loadAndProcessData [[("A", "x")]] 0).isOk = false ∧
    (GET none 0 (Except.ok [[("A", "x")]])).1.status = 500 ∧
    (POST none 0 (Except.ok [[("A", "x")]]) none).1.status = 500 :=
  ⟨by decide,
    ((claim_C6_load_validation [[("A", "x")]] 0 none).2.2.2 (by decide)).1,
    ((claim_C6_load_validation [[("A", "x")]] 0 none).2.2.2 (by decide)).2⟩

/-! ### Claims about the HTTP handlers -/

/-- C2: for every POST request whose body parses to a JSON object, with
a successfully loaded (hence non-empty) dataset, the handler answers
success with prediction equal to the tip-column value of the row
selected by findBestMatch over the cached dataset. -/
theorem claim_C2_post_prediction (cache : Option CacheData) (now : ℤ)
    (file : Except Unit (List Row)) (fields : List (String × Json)) (d : CacheData)
    (cache2 : Option CacheData)
    (hget : getCachedData cache now file = (Except.ok d, cache2))
    (hne : d.mlData ≠ []) :
    ∃ b, findBestMatch (jsEntries (Json.obj fields)) d.mlData = some b ∧
      POST cache now file (some (Json.obj fields)) =
        ({ status := 200, success := true, prediction := rowGet b tipCol
           error := none, columns := none }, cache2) := by
  obtain ⟨b, hfb⟩ := findBestMatch_isSome (jsEntries (Json.obj fields)) d.mlData hne
  exact ⟨b, hfb, POST_ok cache now file d cache2 (Json.obj fields) b hget rfl hfb⟩

/-- C2 witness: a POST with an object body against a fresh cache
answers 200 with the matched tip. -/
theorem claim_C2_witness :
    getCachedData (some sampleCache) 50 (Except.error ()) =
      (Except.ok sampleCache, some sampleCache) ∧
    sampleCache.mlData ≠ [] ∧
    ∃ b, findBestMatch (jsEntries (Json.obj [("Q", Json.str "v")])) sampleCache.mlData =
        some b ∧
      POST (some sampleCache) 50 (Except.error ()) (some (Json.obj [("Q", Json.str "v")])) =
        ({ status := 200, success := true, prediction := rowGet b tipCol
           error := none, columns := none }, some sampleCache) :=
  ⟨by decide, by decide,
    claim_C2_post_prediction (some sampleCache) 50 (Except.error ()) [("Q", Json.str "v")]
      sampleCache (some sampleCache) (by decide) (by decide)⟩

/-- A dataset with an empty cell in column A: the value "" occurs in
the column but is filtered out of the options by the truthiness
check. -/
def emptyCellRows : List Row :=
  [[("A", ""), (tipCol, "t")], [("A", "x"), (tipCol, "t2")]]

/-- C3 counterexample: on emptyCellRows the GET schema succeeds with
options ["x"] for column A, although the value "" also appears in that
column, so the options do not equal the distinct values appearing in
the column as the claim states. -/
theorem claim_C3_counterexample :
    (GET none 0 (Except.ok emptyCellRows)).1.success = true ∧
    (GET none 0 (Except.ok emptyCellRows)).1.columns =
      some [{ name := "A", type := "categorical", options := ["x"] }] ∧
    (∃ row ∈ emptyCellRows, rowGet row "A" = some "") ∧
    "" ∉ ["x"] := by decide

/-- C3 amended: for every successfully loaded dataset the GET endpoint
returns one column entry per key of the first parsed row except the
tip column, each of type categorical, with options equal to the
distinct non-empty values appearing in that column across all rows. -/
theorem claim_C3_schema_columns (parsed : List Row) (now : ℤ) (first : Row)
    (rest : List Row) (d : CacheData) (hp : parsed = first :: rest)
    (hload : loadAndProcessData parsed now = Except.ok d) :
    GET none now (Except.ok parsed) =
      ({ status := 200, success := true, prediction := none, error := none
         columns := some d.columnInfo }, some d) ∧
    d.columnInfo.map Column.name = (first.map Prod.fst).filter (fun hd => hd ≠ tipCol) ∧
    ∀ col ∈ d.columnInfo, col.type = "categorical" ∧
      ∀ v, (v ∈ col.options ↔ v ≠ "" ∧ ∃ row ∈ parsed, rowGet row col.name = some v) := by
  subst hp
  obtain ⟨hml, hlu, hci⟩ := loadAndProcessData_ok_elim first rest now d hload
  have hget : getCachedData none now (Except.ok (first :: rest)) = (Except.ok d, some d) := by
    show refreshCache none now (Except.ok (first :: rest)) = _
    exact refreshCache_ok none now (first :: rest) d hload
  refine ⟨GET_ok none now _ d (some d) hget, ?_, ?_⟩
  · rw [hci, List.map_map]
    have hcomp : (Column.name ∘ fun colname =>
        ({ name := colname, type := "categorical"
           options := columnOptions (first :: rest) colname } : Column)) =
        fun colname => colname := rfl
    rw [hcomp]
    exact List.map_id _
  · intro col hcol
    rw [hci] at hcol
    obtain ⟨colname, hmem, hcoleq⟩ := List.mem_map.mp hcol
    subst hcoleq
    exact ⟨rfl, fun v => mem_columnOptions (first :: rest) colname v⟩

/-- The cache entry produced by loading sampleRows. -/
def sampleLoaded : CacheData :=
  { mlData := sampleRows
    columnInfo := [{ name := "A", type := "categorical", options := ["x"] },
                   { name := "B", type := "categorical", options := ["y", "z"] }]
    lastUpdated := 0 }

/-- C3 witness: the amended schema property at a concrete dataset. -/
theorem claim_C3_witness :
    loadAndProcessData sampleRows 0 = Except.ok sampleLoaded ∧
    (GET none 0 (Except.ok sampleRows) =
        ({ status := 200, success := true, prediction := none, error := none
           columns := some sampleLoaded.columnInfo }, some sampleLoaded) ∧
      sampleLoaded.columnInfo.map Column.name =
        (([("A", "x"), ("B", "y"), (tipCol, "t1")] : Row).map Prod.fst).filter
          (fun hd => hd ≠ tipCol) ∧
      ∀ col ∈ sampleLoaded.columnInfo, col.type = "categorical" ∧
        ∀ v, (v ∈ col.options ↔
          v ≠ "" ∧ ∃ row ∈ sampleRows, rowGet row col.name = some v)) :=
  ⟨by decide,
    claim_C3_schema_columns sampleRows 0 [("A", "x"), ("B", "y"), (tipCol, "t1")]
      [[("A", "x"), ("B", "z"), (tipCol, "t2")]] sampleLoaded rfl (by decide)⟩

/-- C10 counterexample: a body parsing to the empty JSON array, a
non-object and non-null value, passes the input validation (JS typeof
of an array is "object") and yields a 200 success response instead of
the claimed 400 with error "Invalid input format". -/
theorem claim_C10_counterexample :
    validInput (Json.arr []) = true ∧
    (POST (some sampleCache) 50 (Except.error ()) (some (Json.arr []))).1.status = 200 ∧
    (POST (some sampleCache) 50 (Except.error ()) (some (Json.arr []))).1.success = true ∧
    (POST (some sampleCache) 50 (Except.error ()) (some (Json.arr []))).1.error = none := by
  refine ⟨rfl, ?_⟩
  have hget : getCachedData (some sampleCache) 50 (Except.error ()) =
      (Except.ok sampleCache, some sampleCache) := by decide
  have hfb : findBestMatch (jsEntries (Json.arr [])) sampleCache.mlData =
      some [(tipCol, "t1")] := by decide
  rw [POST_ok (some sampleCache) 50 (Except.error ()) sampleCache (some sampleCache)
    (Json.arr []) [(tipCol, "t1")] hget rfl hfb]
  exact ⟨rfl, rfl, rfl⟩

/-- C10 amended: a parsed body fails the `!userInput || typeof
userInput !== "object"` validation exactly when it is null, a boolean,
a number, or a string; such a body gets 400 with error "Invalid input
format" (without reaching findBestMatch), an array body passes the
check like an object, and an unparseable body gets the 500 catch-block
response. -/
theorem claim_C10_input_validation (cache : Option CacheData) (now : ℤ)
    (file : Except Unit (List Row)) (j : Json) (d : CacheData)
    (cache2 : Option CacheData)
    (hget : getCachedData cache now file = (Except.ok d, cache2)) :
    (validInput j = false ↔
      j = Json.null ∨ (∃ b, j = Json.bool b) ∨ (∃ q, j = Json.num q) ∨
        ∃ s, j = Json.str s) ∧
    (validInput j = false →
      POST cache now file (some j) =
        ({ status := 400, success := false, prediction := none
           error := some "Invalid input format", columns := none }, cache2)) ∧
    POST cache now file none = (postFailureResponse, cache2) ∧
    postFailureResponse.error = some "Failed to generate recommendation" := by
  refine ⟨?_, ?_, POST_parseFail cache now file d cache2 hget, rfl⟩
  · cases j <;> simp [validInput]
  · intro hvi
    exact POST_badInput cache now file d cache2 j hget hvi

/-- C10 witness: a string body gets 400 and a missing body gets the 500
catch response against a fresh cache. -/
theorem claim_C10_witness :
    getCachedData (some sampleCache) 50 (Except.error ()) =
      (Except.ok sampleCache, some sampleCache) ∧
    validInput (Json.str "hi") = false ∧
    POST (some sampleCache) 50 (Except.error ()) (some (Json.str "hi")) =
      ({ status := 400, success := false, prediction := none
         error := some "Invalid input format", columns := none }, some sampleCache) ∧
    POST (some sampleCache) 50 (Except.error ()) none =
      (postFailureResponse, some sampleCache) :=
  ⟨by decide, rfl,
    (claim_C10_input_validation (some sampleCache) 50 (Except.error ()) (Json.str "hi")
      sampleCache (some sampleCache) (by decide)).2.1 rfl,
    (claim_C10_input_validation (some sampleCache) 50 (Except.error ()) (Json.str "hi")
      sampleCache (some sampleCache) (by decide)).2.2.1⟩
